import Mathlib

/-!
Shallow embedding of the NotebookLM-Portal content pipeline (`workflow.py`).

The pipeline stages are embedded as pure Lean functions over explicit data:

* HTML documents, as observed by the extraction code after parsing, are the
  structure `HtmlDoc` (article elements with their stripped heading and
  paragraph texts, the main/content block, the document title, and all body
  paragraphs).
* The Sentence-Transformer embedding plus cosine-similarity step of the
  ranker is an oracle `Option (String → Rat)`: `some sim` gives, for each
  encoded text, its cosine similarity with the query embedding; `none`
  stands for the try-block raising an arbitrary error.
* Python regular expressions over `str` are modelled on their ASCII
  fragment: `\w` is `[A-Za-z0-9_]` and `\s` is the six ASCII whitespace
  characters.
* Clock reads (`datetime.now()`) are explicit timestamp parameters.
* The PDF produced by FPDF is `PdfDoc`: the title line, the metadata lines
  written with `pdf.cell(..., ln=True)` in order, and the body text passed
  to the final `pdf.multi_cell`.
-/

set_option maxRecDepth 8000

/-- ASCII fragment of the Python regex class `\w` (word characters). -/
def pyIsWordChar (c : Char) : Bool := c.isAlphanum || c == '_'

/-- ASCII fragment of the Python regex class `\s` (whitespace characters). -/
def pyIsSpaceChar (c : Char) : Bool :=
  c == ' ' || c == '\t' || c == '\n' || c == '\r' || c == '\x0b' || c == '\x0c'

/-- Python string slicing `s[:n]`. -/
def pyTake (n : Nat) (s : String) : String := String.mk (s.data.take n)

/-- Python `' '.join(l)`. -/
def joinSp (l : List String) : String := String.intercalate " " l

/-- Worker for `re.sub(r'\s+', ' ', s)`: the Boolean records whether the
previous character was part of a whitespace run already replaced. -/
def collapseWsAux : List Char → Bool → List Char
  | [], _ => []
  | c :: rest, inRun =>
    if pyIsSpaceChar c then
      if inRun then collapseWsAux rest true
      else ' ' :: collapseWsAux rest true
    else c :: collapseWsAux rest false

/-- `re.sub(r'\s+', ' ', s)` from `generate_pdf` (workflow.py line 164). -/
def collapse_ws (s : String) : String := String.mk (collapseWsAux s.data false)

/-- Worker for `re.sub(r'[-\s]+', '_', s)` from `generate_filename`. -/
def collapseDashSpaceAux : List Char → Bool → List Char
  | [], _ => []
  | c :: rest, inRun =>
    if pyIsSpaceChar c || c == '-' then
      if inRun then collapseDashSpaceAux rest true
      else '_' :: collapseDashSpaceAux rest true
    else c :: collapseDashSpaceAux rest false

/-- `re.sub(r'[^\w\s-]', '', s)` from `generate_filename`. -/
def stripNonWord (l : List Char) : List Char :=
  l.filter (fun c => pyIsWordChar c || pyIsSpaceChar c || c == '-')

/-- Python `s.strip` applied with the underscore character. -/
def stripUnderscore (l : List Char) : List Char :=
  ((l.dropWhile (fun c => c == '_')).reverse.dropWhile (fun c => c == '_')).reverse

/-- The three-step cleaning pipeline applied to both the title and the query
in `generate_filename` (workflow.py lines 192 to 199). -/
def clean_component (s : String) : String :=
  String.mk (stripUnderscore (collapseDashSpaceAux (stripNonWord s.data) false))

/-- `generate_filename` (workflow.py lines 187 to 214), with the
`datetime.now().strftime('%Y%m%d_%H%M%S')` clock read passed in as the
`timestamp` parameter.  Cleaning happens first, truncation after
(title to 50 characters, query to 30), and the composition cases mirror
`if clean_title and clean_query / elif clean_title / else`. -/
def generate_filename (essay_title query timestamp : String) : String :=
  if pyTake 50 (clean_component essay_title) ≠ "" ∧ pyTake 30 (clean_component query) ≠ "" then
    ("NotebookLM_" ++ pyTake 50 (clean_component essay_title) ++ "_" ++
      pyTake 30 (clean_component query) ++ "_" ++ timestamp) ++ ".pdf"
  else if pyTake 50 (clean_component essay_title) ≠ "" then
    ("NotebookLM_" ++ pyTake 50 (clean_component essay_title) ++ "_" ++ timestamp) ++ ".pdf"
  else
    ("NotebookLM_Content_" ++ timestamp) ++ ".pdf"

/-- Modelled from the spec: the reference definition of filename generation in
section 4.3, exactly as claim C2 reads it — compose
`NotebookLM_{title}_{query}_{timestamp}.pdf`, omit the query segment only when
the cleaned query is empty, and produce the `Content` fallback only when both
cleaned components are empty. -/
def generate_filename_spec (essay_title query timestamp : String) : String :=
  if pyTake 50 (clean_component essay_title) = "" ∧ pyTake 30 (clean_component query) = "" then
    ("NotebookLM_Content_" ++ timestamp) ++ ".pdf"
  else if pyTake 30 (clean_component query) = "" then
    ("NotebookLM_" ++ pyTake 50 (clean_component essay_title) ++ "_" ++ timestamp) ++ ".pdf"
  else
    ("NotebookLM_" ++ pyTake 50 (clean_component essay_title) ++ "_" ++
      pyTake 30 (clean_component query) ++ "_" ++ timestamp) ++ ".pdf"

/-- Modelled from the spec: the reference definition amended as claim C2
forces — the `Content` fallback fires whenever the cleaned title is empty
(even with a non-empty cleaned query, which is then dropped), and the query
segment appears only when both cleaned components are non-empty. -/
def generate_filename_spec_amended (essay_title query timestamp : String) : String :=
  if pyTake 50 (clean_component essay_title) = "" then
    ("NotebookLM_Content_" ++ timestamp) ++ ".pdf"
  else if pyTake 30 (clean_component query) = "" then
    ("NotebookLM_" ++ pyTake 50 (clean_component essay_title) ++ "_" ++ timestamp) ++ ".pdf"
  else
    ("NotebookLM_" ++ pyTake 50 (clean_component essay_title) ++ "_" ++
      pyTake 30 (clean_component query) ++ "_" ++ timestamp) ++ ".pdf"

/-- The decimal digit character for `n % 10`. -/
def digitChar (n : Nat) : Char := Char.ofNat (48 + n % 10)

/-- Two-digit zero-padded decimal rendering, as `strftime` uses for
month, day, hour, minute and second fields. -/
def pad2 (n : Nat) : String := String.mk [digitChar (n / 10), digitChar n]

/-- Four-digit zero-padded decimal rendering, as `strftime` uses for `%Y`. -/
def pad4 (n : Nat) : String :=
  String.mk [digitChar (n / 1000), digitChar (n / 100), digitChar (n / 10), digitChar n]

/-- `datetime.now().strftime('%Y%m%d_%H%M%S')`, over the clock fields. -/
def format_timestamp (y mo d h mi s : Nat) : String :=
  pad4 y ++ pad2 mo ++ pad2 d ++ "_" ++ pad2 h ++ pad2 mi ++ pad2 s

/-- A candidate dictionary `{'title': ..., 'content': ...}` produced by the
fetcher; `queryUsed` models the optional `query_used` key that
`process_workflow` attaches before rendering (`none` = key absent). -/
structure Candidate where
  title : String
  content : String
  queryUsed : Option String
deriving DecidableEq

/-- Default used only to make Python indexing `essays[i]` total in Lean;
all uses are guarded by in-bounds proofs. -/
def defaultCandidate : Candidate := ⟨"", "", none⟩

/-- The sentinel candidate of workflow.py line 92. -/
def noContentCandidate : Candidate :=
  ⟨"No Content Found", "Unable to extract meaningful content from this URL.", none⟩

/-- An `article` element as the extraction code reads it: the stripped text
of its first h1/h2/h3 heading (if any) and the stripped texts of its
paragraph descendants in order. -/
structure ArticleElem where
  heading : Option String
  paragraphs : List String
deriving DecidableEq

/-- The container found by strategy 2: `soup.find(['main','article'])` or the
first div with a content-like class; its first h1/h2 heading text and its
paragraph texts. -/
structure MainElem where
  heading : Option String
  paragraphs : List String
deriving DecidableEq

/-- A successfully fetched and parsed HTML page, after the script, style,
nav, footer and header elements were decomposed: everything the three
extraction strategies observe. -/
structure HtmlDoc where
  articles : List ArticleElem
  mainBlock : Option MainElem
  docTitle : Option String
  bodyParagraphs : List String
deriving DecidableEq

/-- Strategy 1 loop body (workflow.py lines 48 to 59): `idx` is the
enumeration index over the first ten articles; a candidate is kept only when
the joined paragraph text exceeds 200 characters. -/
def strategy1Aux : Nat → List ArticleElem → List Candidate
  | _, [] => []
  | idx, a :: rest =>
    (if 200 < (joinSp a.paragraphs).length then
      [⟨a.heading.getD ("Article " ++ toString (idx + 1)), joinSp a.paragraphs, none⟩]
    else []) ++ strategy1Aux (idx + 1) rest

/-- Strategy 1: article tags, limited to `articles[:10]`. -/
def strategy1 (doc : HtmlDoc) : List Candidate :=
  strategy1Aux 0 (doc.articles.take 10)

/-- Strategy 2 (workflow.py lines 62 to 78): main content block. -/
def strategy2 (doc : HtmlDoc) : List Candidate :=
  match doc.mainBlock with
  | none => []
  | some m =>
    if 200 < (joinSp m.paragraphs).length then
      [⟨m.heading.getD (doc.docTitle.getD "Web Content"), joinSp m.paragraphs, none⟩]
    else []

/-- Strategy 3 (workflow.py lines 81 to 90): all body paragraphs whose
individual stripped length exceeds 50 characters. -/
def strategy3 (doc : HtmlDoc) : List Candidate :=
  if 200 < (joinSp (doc.bodyParagraphs.filter (fun p => 50 < p.length))).length then
    [⟨doc.docTitle.getD "Web Content",
      joinSp (doc.bodyParagraphs.filter (fun p => 50 < p.length)), none⟩]
  else []

/-- `fetch_and_parse_content` after a successful fetch (workflow.py lines
43 to 92): ordered fallback over the three strategies, then the sentinel.
Each later strategy runs only if the accumulated `essays` list is still
empty, and the final return is `essays if essays else [sentinel]`. -/
def fetch_and_parse_content (doc : HtmlDoc) : List Candidate :=
  if strategy1 doc ≠ [] then strategy1 doc
  else if strategy2 doc ≠ [] then strategy2 doc
  else if strategy3 doc ≠ [] then strategy3 doc
  else [noContentCandidate]

/-- Index of the first maximal element, matching the documented behaviour of
the tensor argmax used at workflow.py line 118 (ties resolved to the first
occurrence). -/
def argmaxIdx : List Rat → Nat
  | [] => 0
  | [_] => 0
  | x :: y :: rest =>
    let j := argmaxIdx (y :: rest)
    if x < (y :: rest).getD j 0 then j + 1 else 0

/-- The similarity scores of workflow.py lines 111 to 115: each essay
content is truncated to its first 1000 characters before encoding, and
`sim` is the composition of the model encoding with the cosine similarity
against the query embedding. -/
def simScores (essays : List Candidate) (sim : String → Rat) : List Rat :=
  essays.map (fun essay => sim (pyTake 1000 essay.content))

/-- `rank_content_by_relevance` (workflow.py lines 98 to 127).  The `enc`
oracle is the embedding plus similarity computation: `some sim` is the
successful try block, `none` is the except branch (any raised error), which
returns `essays[0]`. -/
def rank_content_by_relevance (essays : List Candidate) (enc : Option (String → Rat)) :
    Option Candidate :=
  if essays = [] then none
  else
    match enc with
    | some sim => some (essays.getD (argmaxIdx (simScores essays sim)) defaultCandidate)
    | none => some (essays.headD defaultCandidate)

/-- The rendered PDF of `generate_pdf`: title line, the metadata cell lines
in write order, and the body text handed to the final `multi_cell`. -/
structure PdfDoc where
  titleLine : String
  metaLines : List String
  body : String
deriving DecidableEq

/-- `hasattr(essay_data, 'query_used')` at workflow.py line 153: the value is
a plain dict, and `hasattr` inspects object attributes, never dict keys, so
it is False for every candidate dictionary. -/
def dict_hasattr_query_used (_ : Candidate) : Bool := false

/-- `generate_pdf` (workflow.py lines 130 to 184), with the
`datetime.now().strftime('%Y-%m-%d %H:%M:%S')` read passed as `now_str`.
The query metadata line is guarded by
`hasattr(essay_data, 'query_used') and essay_data.get('query_used')`. -/
def generate_pdf (essay_data : Candidate) (source_url now_str : String) : PdfDoc :=
  ⟨essay_data.title,
    if dict_hasattr_query_used essay_data = true ∧ essay_data.queryUsed.getD "" ≠ "" then
      ["Source: " ++ source_url, "Generated: " ++ now_str,
        "Research Query: " ++ essay_data.queryUsed.getD ""]
    else
      ["Source: " ++ source_url, "Generated: " ++ now_str],
    collapse_ws essay_data.content⟩

/-- `best_essay['query_used'] = user_query` at workflow.py line 236. -/
def attach_query (c : Candidate) (q : String) : Candidate := ⟨c.title, c.content, some q⟩

/-- `process_workflow` (workflow.py lines 217 to 246) on a successfully
fetched page: rank, fail with the NoContentError message when the ranker
yields nothing, otherwise attach the query, compute the filename and render.
The two clock reads are the `now_str` and `fn_timestamp` parameters. -/
def process_workflow (doc : HtmlDoc) (url user_query : String)
    (enc : Option (String → Rat)) (now_str fn_timestamp : String) :
    Except String (PdfDoc × String) :=
  match rank_content_by_relevance (fetch_and_parse_content doc) enc with
  | none => Except.error "No relevant content found"
  | some best_essay =>
    Except.ok
      (generate_pdf (attach_query best_essay user_query) url now_str,
        generate_filename (attach_query best_essay user_query).title user_query fn_timestamp)

/-- A 201-character text used by concrete witnesses. -/
def longText : String := String.mk (List.replicate 201 'a')

/-- Concrete page with a single qualifying article (witness input). -/
def doc1 : HtmlDoc :=
  ⟨[⟨some "My Title", [longText]⟩], some ⟨some "My Title", [longText]⟩,
    some "My Title", [longText]⟩

/-- Concrete page whose only qualifying article is the eleventh one
(counterexample input for claim C5). -/
def doc11 : HtmlDoc :=
  ⟨List.replicate 10 ⟨none, []⟩ ++ [⟨some "Late Article", [longText]⟩],
    some ⟨none, []⟩, none, [longText]⟩

/-- Concrete candidate list for ranking witnesses. -/
def essaysW : List Candidate :=
  [⟨"A", "alpha content", none⟩, ⟨"B", "beta content", none⟩]

/-- Constant similarity oracle (witness input). -/
def constSim : String → Rat := fun _ => 0

/-- Similarity oracle preferring the second essay (witness input). -/
def simW : String → Rat := fun s => if s = "beta content" then 1 else 0

/-- The selected candidate of the end-to-end scenario, after
`process_workflow` attached the research query. -/
def c1Essay : Candidate :=
  ⟨"My Title", "Machine learning is a field of artificial intelligence.",
    some "machine learning"⟩

/-! General helper lemmas. -/

theorem string_data_append (s t : String) : (s ++ t).data = s.data ++ t.data := by
  cases s
  cases t
  rfl

theorem list_getD_mem {α : Type} (l : List α) (i : Nat) (d : α) (h : i < l.length) :
    l.getD i d ∈ l := by
  induction l generalizing i with
  | nil => simp at h
  | cons a rest ih =>
    cases i with
    | zero => simp
    | succ n =>
      simp only [List.getD_cons_succ]
      exact List.mem_cons_of_mem _ (ih n (Nat.lt_of_succ_lt_succ h))

theorem mem_of_mem_dropWhile {α : Type} (p : α → Bool) (l : List α) :
    ∀ c ∈ l.dropWhile p, c ∈ l := by
  induction l with
  | nil => simp
  | cons a rest ih =>
    intro c hc
    rw [List.dropWhile_cons] at hc
    split at hc
    · exact List.mem_cons_of_mem _ (ih c hc)
    · exact hc

/-! Lemmas about the argmax of the ranker. -/

theorem argmaxIdx_lt_length (l : List Rat) (h : l ≠ []) : argmaxIdx l < l.length := by
  induction l with
  | nil => exact absurd rfl h
  | cons x rest ih =>
    cases rest with
    | nil => simp [argmaxIdx]
    | cons y t =>
      simp only [argmaxIdx]
      split
      · have := ih (by simp)
        simpa using Nat.succ_lt_succ this
      · simp

theorem argmaxIdx_max (l : List Rat) : ∀ j, j < l.length →
    l.getD j 0 ≤ l.getD (argmaxIdx l) 0 := by
  induction l with
  | nil => intro j hj; simp at hj
  | cons x rest ih =>
    intro j hj
    cases rest with
    | nil =>
      have hj0 : j = 0 := by simpa using Nat.lt_one_iff.mp (by simpa using hj)
      subst hj0
      simp [argmaxIdx]
    | cons y t =>
      simp only [argmaxIdx]
      split
      next hlt =>
        cases j with
        | zero =>
          simp only [List.getD_cons_zero, List.getD_cons_succ]
          exact le_of_lt hlt
        | succ k =>
          simp only [List.getD_cons_succ]
          exact ih k (Nat.lt_of_succ_lt_succ hj)
      next hge =>
        have hxe : (y :: t).getD (argmaxIdx (y :: t)) 0 ≤ x := le_of_not_lt hge
        cases j with
        | zero => simp
        | succ k =>
          simp only [List.getD_cons_succ, List.getD_cons_zero]
          exact le_trans (ih k (Nat.lt_of_succ_lt_succ hj)) hxe

theorem argmaxIdx_first (l : List Rat) : ∀ j, j < argmaxIdx l →
    l.getD j 0 < l.getD (argmaxIdx l) 0 := by
  induction l with
  | nil => intro j hj; simp [argmaxIdx] at hj
  | cons x rest ih =>
    intro j hj
    cases rest with
    | nil => simp [argmaxIdx] at hj
    | cons y t =>
      simp only [argmaxIdx] at hj ⊢
      by_cases hlt : x < (y :: t).getD (argmaxIdx (y :: t)) 0
      · rw [if_pos hlt] at hj ⊢
        cases j with
        | zero =>
          simpa only [List.getD_cons_zero, List.getD_cons_succ] using hlt
        | succ k =>
          simp only [List.getD_cons_succ]
          exact ih k (Nat.lt_of_succ_lt_succ hj)
      · rw [if_neg hlt] at hj
        exact absurd hj (Nat.not_lt_zero j)

/-! Character-level lemmas for filename safety. -/

theorem digitChar_word (n : Nat) : pyIsWordChar (digitChar n) = true := by
  unfold digitChar
  have h : n % 10 < 10 := Nat.mod_lt _ (by norm_num)
  set m := n % 10 with hm
  interval_cases m <;> decide

theorem word_char_props (c : Char) (h : pyIsWordChar c = true) :
    pyIsSpaceChar c = false ∧ c ≠ '/' ∧ c ≠ '.' := by
  refine ⟨?_, ?_, ?_⟩
  · cases hsp : pyIsSpaceChar c
    · rfl
    · exfalso
      simp only [pyIsSpaceChar, Bool.or_eq_true, beq_iff_eq] at hsp
      rcases hsp with ((((h1 | h1) | h1) | h1) | h1) | h1 <;> subst h1 <;>
        exact absurd h (by decide)
  · intro hc
    subst hc
    exact absurd h (by decide)
  · intro hc
    subst hc
    exact absurd h (by decide)

theorem collapseDashSpaceAux_word (l : List Char)
    (h : ∀ c ∈ l, (pyIsWordChar c || pyIsSpaceChar c || c == '-') = true) :
    ∀ b, ∀ c ∈ collapseDashSpaceAux l b, pyIsWordChar c = true := by
  induction l with
  | nil => intro b c hc; simp [collapseDashSpaceAux] at hc
  | cons a rest ih =>
    intro b c hc
    have hrest : ∀ c ∈ rest, (pyIsWordChar c || pyIsSpaceChar c || c == '-') = true :=
      fun c hc => h c (List.mem_cons_of_mem _ hc)
    simp only [collapseDashSpaceAux] at hc
    by_cases ha : (pyIsSpaceChar a || a == '-') = true
    · rw [if_pos ha] at hc
      cases b with
      | true => exact ih hrest true c hc
      | false =>
        rcases List.mem_cons.mp hc with rfl | hc
        · decide
        · exact ih hrest true c hc
    · rw [if_neg ha] at hc
      rcases List.mem_cons.mp hc with rfl | hc
      · have hhead := h c (List.mem_cons_self _ _)
        simp only [Bool.or_eq_true] at hhead ha
        tauto
      · exact ih hrest false c hc

theorem stripUnderscore_subset (l : List Char) : ∀ c ∈ stripUnderscore l, c ∈ l := by
  intro c hc
  unfold stripUnderscore at hc
  rw [List.mem_reverse] at hc
  have h1 := mem_of_mem_dropWhile _ _ c hc
  rw [List.mem_reverse] at h1
  exact mem_of_mem_dropWhile _ _ c h1

theorem stripNonWord_mem (l : List Char) :
    ∀ c ∈ stripNonWord l, (pyIsWordChar c || pyIsSpaceChar c || c == '-') = true := by
  intro c hc
  unfold stripNonWord at hc
  simpa using List.of_mem_filter hc

theorem clean_component_word (s : String) :
    ∀ c ∈ (clean_component s).data, pyIsWordChar c = true := by
  intro c hc
  have hc2 : c ∈ collapseDashSpaceAux (stripNonWord s.data) false :=
    stripUnderscore_subset _ c hc
  exact collapseDashSpaceAux_word _ (stripNonWord_mem s.data) false c hc2

theorem pyTake_mem_data (n : Nat) (s : String) :
    ∀ c ∈ (pyTake n s).data, c ∈ s.data := by
  intro c hc
  exact List.take_subset n s.data hc

theorem word_chars_append (s t : String)
    (hs : ∀ c ∈ s.data, pyIsWordChar c = true)
    (ht : ∀ c ∈ t.data, pyIsWordChar c = true) :
    ∀ c ∈ (s ++ t).data, pyIsWordChar c = true := by
  intro c hc
  rw [string_data_append] at hc
  rcases List.mem_append.mp hc with h | h
  · exact hs c h
  · exact ht c h

theorem pad2_word (n : Nat) : ∀ c ∈ (pad2 n).data, pyIsWordChar c = true := by
  intro c hc
  have hc2 : c ∈ [digitChar (n / 10), digitChar n] := hc
  simp only [List.mem_cons, List.not_mem_nil, or_false] at hc2
  rcases hc2 with rfl | rfl <;> exact digitChar_word _

theorem pad4_word (n : Nat) : ∀ c ∈ (pad4 n).data, pyIsWordChar c = true := by
  intro c hc
  have hc2 : c ∈ [digitChar (n / 1000), digitChar (n / 100), digitChar (n / 10), digitChar n] :=
    hc
  simp only [List.mem_cons, List.not_mem_nil, or_false] at hc2
  rcases hc2 with rfl | rfl | rfl | rfl <;> exact digitChar_word _

theorem underscore_word : ∀ c ∈ ("_" : String).data, pyIsWordChar c = true := by
  decide

theorem format_timestamp_word (y mo d h mi s : Nat) :
    ∀ c ∈ (format_timestamp y mo d h mi s).data, pyIsWordChar c = true := by
  have h1 := word_chars_append (pad4 y) (pad2 mo) (pad4_word y) (pad2_word mo)
  have h2 := word_chars_append _ (pad2 d) h1 (pad2_word d)
  have h3 := word_chars_append _ "_" h2 underscore_word
  have h4 := word_chars_append _ (pad2 h) h3 (pad2_word h)
  have h5 := word_chars_append _ (pad2 mi) h4 (pad2_word mi)
  exact word_chars_append _ (pad2 s) h5 (pad2_word s)

theorem stem_pdf_safe (stem : String) (hw : ∀ c ∈ stem.data, pyIsWordChar c = true) :
    (∀ c ∈ (stem ++ ".pdf").data, pyIsSpaceChar c = false ∧ c ≠ '/') ∧
    (stem ++ ".pdf").data.count '.' = 1 := by
  constructor
  · intro c hc
    rw [string_data_append] at hc
    rcases List.mem_append.mp hc with h | h
    · have hword := hw c h
      exact ⟨(word_char_props c hword).1, (word_char_props c hword).2.1⟩
    · fin_cases h <;> exact ⟨by decide, by decide⟩
  · rw [string_data_append, List.count_append]
    have h0 : stem.data.count '.' = 0 := by
      rw [List.count_eq_zero]
      intro hmem
      exact absurd (hw '.' hmem) (by decide)
    rw [h0]
    decide

/-! Lemmas about the extraction strategies and the fetcher. -/

theorem strategy1Aux_content (l : List ArticleElem) :
    ∀ i, ∀ c ∈ strategy1Aux i l, 200 < c.content.length := by
  induction l with
  | nil => intro i c hc; simp [strategy1Aux] at hc
  | cons a rest ih =>
    intro i c hc
    simp only [strategy1Aux, List.mem_append] at hc
    rcases hc with hc | hc
    · split at hc
      next hlen =>
        rw [List.mem_singleton] at hc
        subst hc
        exact hlen
      next => simp at hc
    · exact ih (i + 1) c hc

theorem strategy1Aux_ne_nil (a : ArticleElem) (hlen : 200 < (joinSp a.paragraphs).length) :
    ∀ (l : List ArticleElem) (i : Nat), a ∈ l → strategy1Aux i l ≠ [] := by
  intro l
  induction l with
  | nil => intro i ha; simp at ha
  | cons b rest ih =>
    intro i ha hcontra
    simp only [strategy1Aux] at hcontra
    rcases List.append_eq_nil.mp hcontra with ⟨h1, h2⟩
    rcases List.mem_cons.mp ha with rfl | hmem
    · rw [if_pos hlen] at h1
      simp at h1
    · exact ih (i + 1) hmem h2

theorem strategy2_content (doc : HtmlDoc) :
    ∀ c ∈ strategy2 doc, 200 < c.content.length := by
  intro c hc
  cases hm : doc.mainBlock with
  | none => simp [strategy2, hm] at hc
  | some m =>
    simp only [strategy2, hm] at hc
    split at hc
    next hlen =>
      rw [List.mem_singleton] at hc
      subst hc
      exact hlen
    next => simp at hc

theorem strategy3_content (doc : HtmlDoc) :
    ∀ c ∈ strategy3 doc, 200 < c.content.length := by
  intro c hc
  unfold strategy3 at hc
  split at hc
  next hlen =>
    rw [List.mem_singleton] at hc
    subst hc
    exact hlen
  next => simp at hc

theorem fetch_ne_nil (doc : HtmlDoc) : fetch_and_parse_content doc ≠ [] := by
  unfold fetch_and_parse_content
  split
  next h => exact h
  next =>
    split
    next h => exact h
    next =>
      split
      next h => exact h
      next => simp

theorem fetch_content (doc : HtmlDoc) :
    (∀ c ∈ fetch_and_parse_content doc, 200 < c.content.length) ∨
      fetch_and_parse_content doc = [noContentCandidate] := by
  unfold fetch_and_parse_content
  split
  next => exact Or.inl (fun c hc => strategy1Aux_content _ 0 c hc)
  next =>
    split
    next => exact Or.inl (strategy2_content doc)
    next =>
      split
      next => exact Or.inl (strategy3_content doc)
      next => exact Or.inr rfl

/-! Lemmas about the ranker. -/

theorem simScores_length (essays : List Candidate) (sim : String → Rat) :
    (simScores essays sim).length = essays.length := by
  simp [simScores]

theorem simScores_ne_nil (essays : List Candidate) (sim : String → Rat)
    (h : essays ≠ []) : simScores essays sim ≠ [] := by
  intro hcontra
  apply h
  have hlen := congrArg List.length hcontra
  rw [simScores_length] at hlen
  exact List.length_eq_zero.mp hlen

theorem rank_isSome (essays : List Candidate) (enc : Option (String → Rat))
    (h : essays ≠ []) : (rank_content_by_relevance essays enc).isSome = true := by
  unfold rank_content_by_relevance
  rw [if_neg h]
  cases enc <;> simp

/-! The claim theorems. -/

/-- C1: the claim says the rendered document carries a
`Research Query: <query>` metadata line whenever `query_used` is present and
non-empty.  The code never renders it: the guard
`hasattr(essay_data, 'query_used')` is evaluated on a plain dict, where it is
always False, so even for the end-to-end candidate with
`query_used = 'machine learning'` the metadata lines contain only the source
and the generation timestamp.  This theorem evaluates the generator at that
failing input. -/
theorem C1_query_line_never_rendered :
    c1Essay.queryUsed = some "machine learning" ∧
    ("machine learning" : String) ≠ "" ∧
    (generate_pdf c1Essay "https://example.com/article" "2024-01-01 12:00:00").metaLines =
      ["Source: https://example.com/article", "Generated: 2024-01-01 12:00:00"] ∧
    ("Research Query: machine learning" : String) ∉
      (generate_pdf c1Essay "https://example.com/article" "2024-01-01 12:00:00").metaLines := by
  decide

/-- C2 counterexample: with an empty title and the query `test` the code
produces the `Content` fallback filename even though the cleaned query is
non-empty, so `generate_filename` differs from the reference definition of
the spec, which reserves the fallback for the case where both cleaned
components are empty. -/
theorem C2_filename_spec_counterexample :
    generate_filename "" "test" "20240101_000000" ≠
      generate_filename_spec "" "test" "20240101_000000" ∧
    generate_filename "" "test" "20240101_000000" =
      "NotebookLM_Content_20240101_000000.pdf" ∧
    pyTake 30 (clean_component "test") ≠ "" := by
  decide

/-- C2 (amended): `generate_filename` equals the reference definition once
the composition cases are amended — the `Content` fallback fires whenever the
cleaned title is empty (dropping the query), and the query segment appears
only when both cleaned components are non-empty.  The cleaning steps are as
the claim states them, and `Hello, World! / Test?` cleans to
`Hello_World_Test`. -/
theorem C2_generate_filename_amended (essay_title query timestamp : String) :
    generate_filename essay_title query timestamp =
      generate_filename_spec_amended essay_title query timestamp ∧
    clean_component "Hello, World! / Test?" = "Hello_World_Test" := by
  constructor
  · unfold generate_filename generate_filename_spec_amended
    by_cases h1 : pyTake 50 (clean_component essay_title) = "" <;>
      by_cases h2 : pyTake 30 (clean_component query) = "" <;>
        simp [h1, h2]
  · decide

/-- C3: for every fetched page, `fetch_and_parse_content` returns a
non-empty candidate list; every returned candidate has content longer than
200 characters, except that when no strategy yields a qualifying candidate
the result is exactly the single `No Content Found` sentinel. -/
theorem C3_fetch_invariant (doc : HtmlDoc) :
    fetch_and_parse_content doc ≠ [] ∧
    ((∀ c ∈ fetch_and_parse_content doc, 200 < c.content.length) ∨
      fetch_and_parse_content doc = [noContentCandidate]) :=
  ⟨fetch_ne_nil doc, fetch_content doc⟩

/-- C4: on every non-empty candidate list the ranker returns exactly one
candidate that is a member (by value) of its input, never `none`; and when
the embedding or similarity computation raises (the `none` oracle) it
returns the first input candidate unchanged. -/
theorem C4_ranker_member_and_fallback (essays : List Candidate)
    (enc : Option (String → Rat)) (h : essays ≠ []) :
    (∃ c, rank_content_by_relevance essays enc = some c ∧ c ∈ essays) ∧
    rank_content_by_relevance essays none = some (essays.headD defaultCandidate) := by
  constructor
  · cases enc with
    | none =>
      refine ⟨essays.headD defaultCandidate, by simp [rank_content_by_relevance, h], ?_⟩
      cases essays with
      | nil => exact absurd rfl h
      | cons a rest => simp
    | some sim =>
      refine ⟨essays.getD (argmaxIdx (simScores essays sim)) defaultCandidate,
        by simp [rank_content_by_relevance, h], ?_⟩
      apply list_getD_mem
      have h1 := argmaxIdx_lt_length _ (simScores_ne_nil essays sim h)
      rw [simScores_length] at h1
      exact h1
  · simp [rank_content_by_relevance, h]

/-- Witness for C4 at a concrete two-candidate list and a constant
similarity oracle. -/
theorem C4_ranker_member_and_fallback_witness :
    essaysW ≠ [] ∧
    ((∃ c, rank_content_by_relevance essaysW (some constSim) = some c ∧ c ∈ essaysW) ∧
      rank_content_by_relevance essaysW none = some (essaysW.headD defaultCandidate)) :=
  ⟨by decide, C4_ranker_member_and_fallback essaysW (some constSim) (by decide)⟩

/-- C5 counterexample: the claim quantifies over any page with some article
whose paragraph text exceeds 200 characters, but the code only scans
`articles[:10]`.  On `doc11` the only qualifying article is the eleventh:
strategy 1 yields nothing and the later strategies do run (the overall
result differs from the strategy 1 output). -/
theorem C5_counterexample :
    (∃ a ∈ doc11.articles, 200 < (joinSp a.paragraphs).length) ∧
    strategy1 doc11 = [] ∧
    fetch_and_parse_content doc11 ≠ strategy1 doc11 := by
  decide

/-- C5 (amended): restricted to the first ten article elements, the claim
holds — whenever one of `articles[:10]` has more than 200 characters of
joined paragraph text, strategy 1 yields at least one candidate and the
fetcher returns exactly the strategy 1 output, so strategies 2 and 3 are
not exercised. -/
theorem C5_first_strategy_wins (doc : HtmlDoc)
    (h : ∃ a ∈ doc.articles.take 10, 200 < (joinSp a.paragraphs).length) :
    strategy1 doc ≠ [] ∧ fetch_and_parse_content doc = strategy1 doc := by
  obtain ⟨a, ha, hlen⟩ := h
  have hne : strategy1 doc ≠ [] := strategy1Aux_ne_nil a hlen _ 0 ha
  refine ⟨hne, ?_⟩
  unfold fetch_and_parse_content
  rw [if_pos hne]

/-- Witness for C5 at a concrete page with one long article. -/
theorem C5_first_strategy_wins_witness :
    (∃ a ∈ doc1.articles.take 10, 200 < (joinSp a.paragraphs).length) ∧
    (strategy1 doc1 ≠ [] ∧ fetch_and_parse_content doc1 = strategy1 doc1) :=
  ⟨by decide, C5_first_strategy_wins doc1 (by decide)⟩

/-- C6: when the embedding succeeds, the ranker returns the candidate at the
index of the maximal similarity computed over each content truncated to its
first 1000 characters, and that index is the first occurrence of the
maximum: every earlier score is strictly smaller, every score is at most the
selected one. -/
theorem C6_ranker_truncated_argmax (essays : List Candidate) (sim : String → Rat)
    (h : essays ≠ []) :
    rank_content_by_relevance essays (some sim) =
      some (essays.getD (argmaxIdx (simScores essays sim)) defaultCandidate) ∧
    argmaxIdx (simScores essays sim) < essays.length ∧
    (∀ j, j < essays.length →
      (simScores essays sim).getD j 0 ≤
        (simScores essays sim).getD (argmaxIdx (simScores essays sim)) 0) ∧
    (∀ j, j < argmaxIdx (simScores essays sim) →
      (simScores essays sim).getD j 0 <
        (simScores essays sim).getD (argmaxIdx (simScores essays sim)) 0) := by
  refine ⟨by simp [rank_content_by_relevance, h], ?_, ?_, ?_⟩
  · have h1 := argmaxIdx_lt_length _ (simScores_ne_nil essays sim h)
    rw [simScores_length] at h1
    exact h1
  · intro j hj
    exact argmaxIdx_max (simScores essays sim) j
      (by rw [simScores_length]; exact hj)
  · intro j hj
    exact argmaxIdx_first (simScores essays sim) j hj

/-- Witness for C6 at a concrete two-candidate list and an oracle preferring
the second candidate. -/
theorem C6_ranker_truncated_argmax_witness :
    essaysW ≠ [] ∧
    (rank_content_by_relevance essaysW (some simW) =
      some (essaysW.getD (argmaxIdx (simScores essaysW simW)) defaultCandidate) ∧
    argmaxIdx (simScores essaysW simW) < essaysW.length ∧
    (∀ j, j < essaysW.length →
      (simScores essaysW simW).getD j 0 ≤
        (simScores essaysW simW).getD (argmaxIdx (simScores essaysW simW)) 0) ∧
    (∀ j, j < argmaxIdx (simScores essaysW simW) →
      (simScores essaysW simW).getD j 0 <
        (simScores essaysW simW).getD (argmaxIdx (simScores essaysW simW)) 0)) :=
  ⟨by decide, C6_ranker_truncated_argmax essaysW simW (by decide)⟩

/-- C7: the NoContentError branch of the orchestrator is unreachable — the
fetcher always returns a non-empty list, on a non-empty list the ranker
result is never `none`, and so `process_workflow` never produces the
`No relevant content found` error. -/
theorem C7_no_content_error_unreachable (doc : HtmlDoc) (url user_query : String)
    (enc : Option (String → Rat)) (now_str fn_timestamp : String) :
    (rank_content_by_relevance (fetch_and_parse_content doc) enc).isSome = true ∧
    process_workflow doc url user_query enc now_str fn_timestamp ≠
      Except.error "No relevant content found" := by
  have hsome := rank_isSome (fetch_and_parse_content doc) enc (fetch_ne_nil doc)
  refine ⟨hsome, ?_⟩
  unfold process_workflow
  cases hm : rank_content_by_relevance (fetch_and_parse_content doc) enc with
  | none =>
    rw [hm] at hsome
    simp at hsome
  | some best => simp

/-- C8: the body text of the rendered document is the candidate content with
every whitespace run collapsed to a single space; in particular the content
`A   B\n\nC` renders with body `A B C`. -/
theorem C8_body_whitespace_collapsed (e : Candidate) (url now_str : String) :
    (generate_pdf e url now_str).body = collapse_ws e.content ∧
    (generate_pdf ⟨"T", "A   B\n\nC", none⟩ "u" "ts").body = "A B C" :=
  ⟨rfl, by decide⟩

/-- C9: filename generation is deterministic — two invocations with equal
titles, equal queries and equal sampled timestamps produce equal filenames;
`generate_filename` is a pure Lean function of exactly these three inputs,
so it touches no other state. -/
theorem C9_filename_deterministic (t1 q1 ts1 t2 q2 ts2 : String)
    (ht : t1 = t2) (hq : q1 = q2) (hts : ts1 = ts2) :
    generate_filename t1 q1 ts1 = generate_filename t2 q2 ts2 := by
  rw [ht, hq, hts]

/-- Witness for C9 at a concrete pair of equal invocations. -/
theorem C9_filename_deterministic_witness :
    ("My Title" : String) = "My Title" ∧ ("ml" : String) = "ml" ∧
    ("20240101_000000" : String) = "20240101_000000" ∧
    generate_filename "My Title" "ml" "20240101_000000" =
      generate_filename "My Title" "ml" "20240101_000000" :=
  ⟨rfl, rfl, rfl,
    C9_filename_deterministic "My Title" "ml" "20240101_000000" "My Title" "ml"
      "20240101_000000" rfl rfl rfl⟩

/-- C10: for every title and query, and every clock reading rendered by
`strftime('%Y%m%d_%H%M%S')`, the generated filename is a stem of word
characters followed by the literal `.pdf`: it contains no whitespace, no
path separator, and exactly one dot, so it cannot contain `..` and joining
it to the storage directory cannot escape that directory. -/
theorem C10_filename_path_safe (title query : String) (y mo d h mi s : Nat) :
    ∃ stem : String,
      generate_filename title query (format_timestamp y mo d h mi s) = stem ++ ".pdf" ∧
      (∀ c ∈ stem.data, pyIsWordChar c = true) ∧
      (∀ c ∈ (generate_filename title query (format_timestamp y mo d h mi s)).data,
        pyIsSpaceChar c = false ∧ c ≠ '/') ∧
      (generate_filename title query (format_timestamp y mo d h mi s)).data.count '.' = 1 := by
  have hts := format_timestamp_word y mo d h mi s
  have hct : ∀ c ∈ (pyTake 50 (clean_component title)).data, pyIsWordChar c = true :=
    fun c hc => clean_component_word title c (pyTake_mem_data 50 (clean_component title) c hc)
  have hcq : ∀ c ∈ (pyTake 30 (clean_component query)).data, pyIsWordChar c = true :=
    fun c hc => clean_component_word query c (pyTake_mem_data 30 (clean_component query) c hc)
  have hlit1 : ∀ c ∈ ("NotebookLM_" : String).data, pyIsWordChar c = true := by decide
  have hlit3 : ∀ c ∈ ("NotebookLM_Content_" : String).data, pyIsWordChar c = true := by decide
  unfold generate_filename
  split_ifs with h1 h2
  · have hstem : ∀ c ∈ ("NotebookLM_" ++ pyTake 50 (clean_component title) ++ "_" ++
        pyTake 30 (clean_component query) ++ "_" ++ format_timestamp y mo d h mi s).data,
        pyIsWordChar c = true :=
      word_chars_append _ _
        (word_chars_append _ _
          (word_chars_append _ _
            (word_chars_append _ _ hlit1 hct) underscore_word) hcq)
        underscore_word |> fun h0 => word_chars_append _ _ h0 hts
    exact ⟨_, rfl, hstem, (stem_pdf_safe _ hstem).1, (stem_pdf_safe _ hstem).2⟩
  · have hstem : ∀ c ∈ ("NotebookLM_" ++ pyTake 50 (clean_component title) ++ "_" ++
        format_timestamp y mo d h mi s).data, pyIsWordChar c = true :=
      word_chars_append _ _
        (word_chars_append _ _ (word_chars_append _ _ hlit1 hct) underscore_word) hts
    exact ⟨_, rfl, hstem, (stem_pdf_safe _ hstem).1, (stem_pdf_safe _ hstem).2⟩
  · have hstem : ∀ c ∈ ("NotebookLM_Content_" ++ format_timestamp y mo d h mi s).data,
        pyIsWordChar c = true :=
      word_chars_append _ _ hlit3 hts
    exact ⟨_, rfl, hstem, (stem_pdf_safe _ hstem).1, (stem_pdf_safe _ hstem).2⟩
